import Mathlib

/-!
Verification of the Industrial-Dashboard backend core (`backend/api/services.py`,
`backend/api/routes.py`) against its specification.

Shallow embedding conventions:
* database tables are lists of records; SQL queries become list operations;
* `datetime` values are modelled as natural numbers (timestamps are totally
  ordered and only compared, never otherwise inspected);
* `float` reading values are modelled as exact rationals (`Rat`);
* raised `HTTPException`s become `Except.error` results carrying status/detail;
* Python strings manipulated character-wise are modelled as `List Char`.
-/

namespace IndustrialDashboard

/-- A row of the `facilities` table. -/
structure Facility where
  id : Nat
  name : String
  location : Option String
  created_at : Nat
deriving DecidableEq, Repr

/-- A row of the `assets` table. -/
structure Asset where
  id : Nat
  facility_id : Nat
  name : String
  asset_type : Option String
  created_at : Nat
deriving DecidableEq, Repr

/-- A row of the `metrics` dimension table. -/
structure Metric where
  id : Nat
  name : String
  unit : Option String
deriving DecidableEq, Repr

/-- A row of the `sensor_readings` table. -/
structure SensorReadingRow where
  id : Nat
  facility_id : Nat
  asset_id : Nat
  metric_id : Nat
  ts : Nat
  value : Rat
deriving DecidableEq, Repr

/-- The relational store the services query. -/
structure DB where
  facilities : List Facility
  assets : List Asset
  metrics : List Metric
  readings : List SensorReadingRow
deriving Repr

/-- A `fastapi.HTTPException` carried on the error path. -/
structure HTTPError where
  status : Nat
  detail : String
deriving DecidableEq, Repr

/-- `HTTPException(status_code=404, detail=f"Facility {facility_id} not found")`. -/
def notFoundError (facility_id : Nat) : HTTPError :=
  ⟨404, "Facility " ++ toString facility_id ++ " not found"⟩

/-- The 400 error raised by `list_sensor_readings` when `start > end`. -/
def invalidRangeError : HTTPError :=
  ⟨400, "start must be less than or equal to end"⟩

/-- The 400 error raised by `list_sensor_readings` when exactly one of
`after_ts`/`after_id` is supplied. -/
def invalidCursorError : HTTPError :=
  ⟨400, "after_ts and after_id must be provided together"⟩

/-- The FastAPI request-validation error for a `limit` outside `[1, 5000]`
(declared via `Query(default=500, ge=1, le=5000)` in `routes.py`). -/
def limitOutOfRangeError : HTTPError :=
  ⟨422, "limit must be between 1 and 5000"⟩

/-- The FastAPI request-validation error for `after_id` below 1
(declared via `Query(default=None, ge=1)` in `routes.py`). -/
def afterIdOutOfRangeError : HTTPError :=
  ⟨422, "after_id must be greater than or equal to 1"⟩

instance {ε α : Type} [DecidableEq ε] [DecidableEq α] : DecidableEq (Except ε α) := fun a b =>
  match a, b with
  | .error e, .error e' =>
    if h : e = e' then .isTrue (by rw [h]) else .isFalse (by intro hc; cases hc; exact h rfl)
  | .error _, .ok _ => .isFalse (by intro hc; cases hc)
  | .ok _, .error _ => .isFalse (by intro hc; cases hc)
  | .ok v, .ok v' =>
    if h : v = v' then .isTrue (by rw [h]) else .isFalse (by intro hc; cases hc; exact h rfl)

/-- `_get_facility_row`: `SELECT ... FROM facilities WHERE id = %s` (first match). -/
def get_facility_row (db : DB) (facility_id : Nat) : Option Facility :=
  db.facilities.find? (fun f => f.id == facility_id)

/-- Response payload of the facility-details endpoint: the facility enriched with
its assets. -/
structure FacilityDetails where
  id : Nat
  name : String
  location : Option String
  created_at : Nat
  assets : List Asset
deriving DecidableEq, Repr

/-- Ordering by asset id, for `ORDER BY id` over assets. -/
def assetIdLE (a b : Asset) : Prop := a.id ≤ b.id

instance : DecidableRel assetIdLE := fun a b => Nat.decLe a.id b.id

instance : IsTotal Asset assetIdLE := ⟨fun a b => Nat.le_total a.id b.id⟩

instance : IsTrans Asset assetIdLE := ⟨fun _ _ _ h h' => Nat.le_trans h h'⟩

/-- `get_facility_details`: 404 when the facility row is missing, otherwise the
facility together with its assets ordered by id. -/
def get_facility_details (db : DB) (facility_id : Nat) : Except HTTPError FacilityDetails :=
  match get_facility_row db facility_id with
  | none => .error (notFoundError facility_id)
  | some f =>
    .ok ⟨f.id, f.name, f.location, f.created_at,
      List.insertionSort assetIdLE (db.assets.filter (fun a => a.facility_id == facility_id))⟩

/-- A joined row returned by the sensor-readings query (reading ⋈ asset ⋈ metric). -/
structure SensorReading where
  id : Nat
  facility_id : Nat
  asset_id : Nat
  asset_name : String
  metric_id : Nat
  metric_name : String
  unit : Option String
  ts : Nat
  value : Rat
deriving DecidableEq, Repr

/-- The inner `JOIN assets a ON a.id = sr.asset_id JOIN metrics m ON m.id = sr.metric_id`
for a single reading: `none` when either dimension row is missing. -/
def joinReading (db : DB) (sr : SensorReadingRow) : Option SensorReading :=
  match db.assets.find? (fun a => a.id == sr.asset_id),
        db.metrics.find? (fun m => m.id == sr.metric_id) with
  | some a, some m =>
    some ⟨sr.id, sr.facility_id, sr.asset_id, a.name, sr.metric_id, m.name, m.unit, sr.ts, sr.value⟩
  | _, _ => none

/-- All joined rows of the `sensor_readings ⋈ assets ⋈ metrics` relation. -/
def joinedRows (db : DB) : List SensorReading :=
  db.readings.filterMap (joinReading db)

/-- One optional filter clause: an omitted parameter contributes no constraint. -/
def optClauseB {β : Type} (o : Option β) (c : β → Bool) : Bool :=
  match o with
  | none => true
  | some v => c v

/-- The conjunction of filter clauses built by `list_sensor_readings`.  Note the
metric-name clause follows Python truthiness (`if metric_name:`): both `None`
and the empty string contribute no clause. -/
def rowPasses (facility_id asset_id : Option Nat) (metric_name : Option String)
    (start stop after_ts after_id : Option Nat) (r : SensorReading) : Bool :=
  optClauseB facility_id (fun v => r.facility_id == v) &&
  optClauseB asset_id (fun v => r.asset_id == v) &&
  (match metric_name with
   | none => true
   | some s => if s = "" then true else r.metric_name == s) &&
  optClauseB start (fun v => decide (v ≤ r.ts)) &&
  optClauseB stop (fun v => decide (r.ts ≤ v)) &&
  (match after_ts, after_id with
   | some t, some i => decide (t < r.ts) || (r.ts == t && decide (i < r.id))
   | _, _ => true)

/-- `(ts, id)` ascending: `ORDER BY sr.ts ASC, sr.id ASC`. -/
def tsIdLE (a b : SensorReading) : Prop := a.ts < b.ts ∨ (a.ts = b.ts ∧ a.id ≤ b.id)

/-- `(ts, id)` descending: `ORDER BY sr.ts DESC, sr.id DESC`. -/
def tsIdGE (a b : SensorReading) : Prop := tsIdLE b a

/-- Strict `(ts, id)` comparison. -/
def tsIdLT (a b : SensorReading) : Prop := a.ts < b.ts ∨ (a.ts = b.ts ∧ a.id < b.id)

instance : DecidableRel tsIdLE := fun a b =>
  inferInstanceAs (Decidable (a.ts < b.ts ∨ (a.ts = b.ts ∧ a.id ≤ b.id)))

instance : DecidableRel tsIdGE := fun a b =>
  inferInstanceAs (Decidable (b.ts < a.ts ∨ (b.ts = a.ts ∧ b.id ≤ a.id)))

instance : DecidableRel tsIdLT := fun a b =>
  inferInstanceAs (Decidable (a.ts < b.ts ∨ (a.ts = b.ts ∧ a.id < b.id)))

instance : IsTotal SensorReading tsIdLE := ⟨fun a b => by unfold tsIdLE; omega⟩

instance : IsTrans SensorReading tsIdLE := ⟨fun a b c h h' => by unfold tsIdLE at *; omega⟩

instance : IsTotal SensorReading tsIdGE := ⟨fun a b => by unfold tsIdGE tsIdLE; omega⟩

instance : IsTrans SensorReading tsIdGE := ⟨fun a b c h h' => by unfold tsIdGE tsIdLE at *; omega⟩

/-- The `start and end and start > end` guard (datetimes are always truthy). -/
def rangeInvalid (start stop : Option Nat) : Bool :=
  match start, stop with
  | some s, some e => decide (e < s)
  | _, _ => false

/-- The `(after_ts is None) != (after_id is None)` guard. -/
def cursorInvalid (after_ts after_id : Option Nat) : Bool :=
  after_ts.isSome != after_id.isSome

/-- `list_sensor_readings`: validate the range and the cursor pair, filter the
joined relation by every supplied parameter, order by `(ts, id)` — ascending
when a cursor is present, descending otherwise — and apply `LIMIT`. -/
def list_sensor_readings (db : DB) (facility_id asset_id : Option Nat)
    (metric_name : Option String) (start stop after_ts after_id : Option Nat)
    (limit : Nat) : Except HTTPError (List SensorReading) :=
  if rangeInvalid start stop then .error invalidRangeError
  else if cursorInvalid after_ts after_id then .error invalidCursorError
  else
    let base := (joinedRows db).filter
      (rowPasses facility_id asset_id metric_name start stop after_ts after_id)
    let sorted := match after_ts with
      | none => List.insertionSort tsIdGE base
      | some _ => List.insertionSort tsIdLE base
    .ok (sorted.take limit)

/-- The declarative FastAPI validation of `read_sensor_readings`’ `limit`
parameter: `Query(default=500, ge=1, le=5000)`. -/
def limitInvalid : Option Int → Bool
  | none => false
  | some l => decide (l < 1) || decide (5000 < l)

/-- The declarative FastAPI validation of `after_id`: `Query(default=None, ge=1)`. -/
def afterIdParamInvalid : Option Nat → Bool
  | none => false
  | some i => decide (i < 1)

/-- The `/sensor-readings` route boundary: parameter validation (with the 500
default for `limit`) in front of `list_sensor_readings`. -/
def read_sensor_readings (db : DB) (facility_id asset_id : Option Nat)
    (metric_name : Option String) (start stop after_ts after_id : Option Nat)
    (limit : Option Int) : Except HTTPError (List SensorReading) :=
  if limitInvalid limit then .error limitOutOfRangeError
  else if afterIdParamInvalid after_id then .error afterIdOutOfRangeError
  else
    list_sensor_readings db facility_id asset_id metric_name start stop after_ts after_id
      (match limit with
       | none => 500
       | some l => l.toNat)

/-- `_get_default_metric_aggregation`: `"sum"` for the fixed set
`{"power_kw", "flow_l_min"}`, `"avg"` otherwise. -/
def get_default_metric_aggregation (metric_name : String) : String :=
  if metric_name == "power_kw" || metric_name == "flow_l_min" then "sum" else "avg"

/-- `WHERE sr.facility_id = %s` over the readings table. -/
def facilityReadings (db : DB) (facility_id : Nat) : List SensorReadingRow :=
  db.readings.filter (fun r => r.facility_id == facility_id)

/-- The `(asset_id, metric_id)` partition keys occurring in a reading list. -/
def partitionKeys (rs : List SensorReadingRow) : List (Nat × Nat) :=
  (rs.map (fun r => (r.asset_id, r.metric_id))).dedup

/-- One `(asset_id, metric_id)` partition of a reading list. -/
def partitionRows (rs : List SensorReadingRow) (k : Nat × Nat) : List SensorReadingRow :=
  rs.filter (fun r => (r.asset_id, r.metric_id) == k)

/-- Strict `(ts, id)` comparison on raw reading rows. -/
def rKeyLT (a b : SensorReadingRow) : Prop := a.ts < b.ts ∨ (a.ts = b.ts ∧ a.id < b.id)

/-- Weak `(ts, id)` comparison on raw reading rows. -/
def rKeyLE (a b : SensorReadingRow) : Prop := a.ts < b.ts ∨ (a.ts = b.ts ∧ a.id ≤ b.id)

/-- `(ts, id)` descending order on raw reading rows (`ORDER BY ts DESC, id DESC`). -/
def rKeyGE (a b : SensorReadingRow) : Prop := rKeyLE b a

instance : DecidableRel rKeyLT := fun a b =>
  inferInstanceAs (Decidable (a.ts < b.ts ∨ (a.ts = b.ts ∧ a.id < b.id)))

instance : DecidableRel rKeyLE := fun a b =>
  inferInstanceAs (Decidable (a.ts < b.ts ∨ (a.ts = b.ts ∧ a.id ≤ b.id)))

instance : DecidableRel rKeyGE := fun a b =>
  inferInstanceAs (Decidable (b.ts < a.ts ∨ (b.ts = a.ts ∧ b.id ≤ a.id)))

instance : IsTotal SensorReadingRow rKeyGE := ⟨fun a b => by unfold rKeyGE rKeyLE; omega⟩

instance : IsTrans SensorReadingRow rKeyGE := ⟨fun a b c h h' => by unfold rKeyGE rKeyLE at *; omega⟩

/-- The CTE `SELECT DISTINCT ON (sr.asset_id, sr.metric_id) ... ORDER BY
sr.asset_id, sr.metric_id, sr.ts DESC, sr.id DESC`: within each
`(asset_id, metric_id)` partition keep the first row in `(ts DESC, id DESC)`
order. -/
def latestPerAssetMetric (db : DB) (facility_id : Nat) : List SensorReadingRow :=
  let rs := facilityReadings db facility_id
  (partitionKeys rs).filterMap (fun k => (List.insertionSort rKeyGE (partitionRows rs k)).head?)

/-- Per-metric dashboard card: the four statistics plus the headline value. -/
structure DashboardMetric where
  metric_name : String
  unit : Option String
  aggregation : String
  agg_sum : Rat
  agg_avg : Rat
  agg_min : Rat
  agg_max : Rat
  latest_ts : Nat
  aggregated_value : Rat
  contributing_assets : Nat
deriving DecidableEq, Repr

/-- The `aggregation_values` dict in the insertion order used by
`get_dashboard_summary` (`sum`, `avg`, `min`, `max`). -/
def aggregationValuesList (m : DashboardMetric) : List (String × Rat) :=
  [( "sum", m.agg_sum), ( "avg", m.agg_avg), ( "min", m.agg_min), ( "max", m.agg_max)]

/-- Ordering of metric group keys by metric name (`ORDER BY m.name`; ties on the
unit keep their first-occurrence order, as the SQL leaves them unspecified). -/
def metricNameLE (a b : String × Option String) : Prop := a.1 ≤ b.1

instance : DecidableRel metricNameLE := fun a b => inferInstanceAs (Decidable (a.1 ≤ b.1))

instance : IsTotal (String × Option String) metricNameLE :=
  ⟨fun a b => le_total a.1 b.1⟩

instance : IsTrans (String × Option String) metricNameLE :=
  ⟨fun _ _ _ h h' => le_trans h h'⟩

/-- One `GROUP BY (m.name, m.unit)` group: `MAX(ts)`, `COUNT(*)`, `SUM`, `AVG`,
`MIN`, `MAX` over the latest values, plus the default-aggregation headline
(`aggregation_values[default_aggregation]` in the Python handler). -/
def buildDashboardMetric (name : String) (unit : Option String)
    (rows : List SensorReadingRow) : Option DashboardMetric :=
  match rows with
  | [] => none
  | r0 :: rest =>
    let sum := (rest.map (fun r => r.value)).foldl (· + ·) r0.value
    let cnt := rest.length + 1
    let avg := sum / (cnt : Rat)
    let minv := rest.foldl (fun acc r => min acc r.value) r0.value
    let maxv := rest.foldl (fun acc r => max acc r.value) r0.value
    let lts := rest.foldl (fun acc r => max acc r.ts) r0.ts
    let aggregation := get_default_metric_aggregation name
    let assoc : List (String × Rat) := [( "sum", sum), ( "avg", avg), ( "min", minv), ( "max", maxv)]
    some ⟨name, unit, aggregation, sum, avg, minv, maxv, lts,
      ((assoc.lookup aggregation).getD 0), cnt⟩

/-- The grouping half of the dashboard query: join the latest rows with the
metrics table, group by `(m.name, m.unit)`, aggregate each group and order the
groups by metric name. -/
def dashboardMetrics (db : DB) (latest : List SensorReadingRow) : List DashboardMetric :=
  let joined := latest.filterMap
    (fun r => (db.metrics.find? (fun m => m.id == r.metric_id)).map (fun m => (m, r)))
  let keys := (joined.map (fun p => (p.1.name, p.1.unit))).dedup
  let sortedKeys := List.insertionSort metricNameLE keys
  sortedKeys.filterMap (fun k =>
    buildDashboardMetric k.1 k.2
      ((joined.filter (fun p => (p.1.name, p.1.unit) == k)).map (fun p => p.2)))

/-- The dashboard response payload. -/
structure DashboardSummary where
  facility_id : Nat
  generated_at : Nat
  metrics : List DashboardMetric
deriving DecidableEq, Repr

/-- `get_dashboard_summary`: 404 for an unknown facility, otherwise the grouped
aggregation of the latest reading per `(asset_id, metric_id)`.  The wall clock
`datetime.now(timezone.utc)` is passed in as `now`. -/
def get_dashboard_summary (db : DB) (facility_id : Nat) (now : Nat) :
    Except HTTPError DashboardSummary :=
  match get_facility_row db facility_id with
  | none => .error (notFoundError facility_id)
  | some _ => .ok ⟨facility_id, now, dashboardMetrics db (latestPerAssetMetric db facility_id)⟩

/-- Spec-side latest-value selection (§4.3 step 1 of the spec): within a
partition pick "the one with the maximum `(ts, id)` pair". -/
def pickMaxReading : List SensorReadingRow → Option SensorReadingRow
  | [] => none
  | r :: rs =>
    match pickMaxReading rs with
    | none => some r
    | some m => if rKeyLT m r then some r else some m

/-- Spec-side latest-value reduction: partition the facility readings by
`(asset_id, metric_id)` and select the maximum-`(ts, id)` reading of each
partition. -/
def latestPerAssetMetricSpec (db : DB) (facility_id : Nat) : List SensorReadingRow :=
  let rs := facilityReadings db facility_id
  (partitionKeys rs).filterMap (fun k => pickMaxReading (partitionRows rs k))

/-- The dashboard computation as worded by the spec (§4.3): identical to
`get_dashboard_summary` except that the latest-value reduction is the explicit
per-partition maximum rather than the `DISTINCT ON` scan. -/
def computeSummarySpec (db : DB) (facility_id : Nat) (now : Nat) :
    Except HTTPError DashboardSummary :=
  match get_facility_row db facility_id with
  | none => .error (notFoundError facility_id)
  | some _ => .ok ⟨facility_id, now, dashboardMetrics db (latestPerAssetMetricSpec db facility_id)⟩

/-! ### Response fingerprint (`_build_dashboard_summary_etag`) -/

/-- The characters of a string literal, as the serializer works on `List Char`. -/
def lit (s : String) : List Char := s.data

/-- An opening curly brace (written via its code point). -/
def lbrace : Char := Char.ofNat 123

/-- A closing curly brace (written via its code point). -/
def rbrace : Char := Char.ofNat 125

/-- The decimal digit character for `d % 10`. -/
def digitChar (d : Nat) : Char := Char.ofNat (48 + d % 10)

/-- Decimal rendering of a natural number, most significant digit first. -/
def natChars (n : Nat) : List Char :=
  if _h : n < 10 then [digitChar n]
  else natChars (n / 10) ++ [digitChar (n % 10)]
decreasing_by exact Nat.div_lt_self (by omega) (by omega)

/-- The numeric value of a digit character (proof device for injectivity). -/
def charVal (c : Char) : Nat := c.toNat - 48

/-- Decimal parsing, the left inverse of `natChars` (proof device). -/
def parseNat (cs : List Char) : Nat := cs.foldl (fun a c => 10 * a + charVal c) 0

/-- Decimal rendering of an integer (a leading minus sign when negative). -/
def intChars (i : Int) : List Char :=
  if i < 0 then Char.ofNat 45 :: natChars i.natAbs else natChars i.natAbs

/-- Injective canonical rendering of a rational value.  `json.dumps` renders
the Python float injectively (shortest round-trip decimal); the model renders
the exact rational as `numerator/denominator`, likewise injectively. -/
def ratChars (q : Rat) : List Char :=
  intChars q.num ++ Char.ofNat 47 :: natChars q.den

/-- JSON string escaping (quote and backslash; the canonical payload only ever
holds names, units and timestamps). -/
def escapeChar (c : Char) : List Char :=
  if c = Char.ofNat 34 ∨ c = Char.ofNat 92 then [Char.ofNat 92, c] else [c]

/-- A JSON string literal: quoted, with quote/backslash escaped. -/
def stringChars (s : String) : List Char :=
  Char.ofNat 34 :: (s.data.map escapeChar).flatten ++ [Char.ofNat 34]

/-- `metric.latest_ts.isoformat()`: an injective textual timestamp rendering,
modelled as the decimal rendering of the abstract timestamp. -/
def isoformatChars (ts : Nat) : List Char := natChars ts

/-- A JSON `null` or string, for the optional unit. -/
def optStringChars : Option String → List Char
  | none => lit "null"
  | some s => stringChars s

/-- Ordering of aggregation-value keys, for
`sorted(metric.aggregation_values.keys())`. -/
def aggKeyLE (a b : String × Rat) : Prop := a.1 ≤ b.1

instance : DecidableRel aggKeyLE := fun a b => inferInstanceAs (Decidable (a.1 ≤ b.1))

instance : IsTotal (String × Rat) aggKeyLE := ⟨fun a b => le_total a.1 b.1⟩

instance : IsTrans (String × Rat) aggKeyLE := ⟨fun _ _ _ h h' => le_trans h h'⟩

/-- `_serialize_metric_for_etag`’s re-sorting of the aggregation-values mapping
by key name. -/
def sortAggValues (l : List (String × Rat)) : List (String × Rat) :=
  List.insertionSort aggKeyLE l

/-- Comma-separated `"key":value` pairs of the aggregation-values object. -/
def serializeAggPairs : List (String × Rat) → List Char
  | [] => []
  | [p] => stringChars p.1 ++ Char.ofNat 58 :: ratChars p.2
  | p :: q :: rest =>
    stringChars p.1 ++ Char.ofNat 58 :: ratChars p.2 ++
      Char.ofNat 44 :: serializeAggPairs (q :: rest)

/-- The serialized fields after `aggregated_value` in a metric object, in
sorted key order (`aggregation`, `aggregation_values`, `contributing_assets`,
`latest_ts`, `metric_name`, `unit`). -/
def serializeMetricTail (m : DashboardMetric) : List Char :=
  lit ",\"aggregation\":" ++ stringChars m.aggregation ++
  lit ",\"aggregation_values\":" ++
    (lbrace :: serializeAggPairs (sortAggValues (aggregationValuesList m)) ++ [rbrace]) ++
  lit ",\"contributing_assets\":" ++ natChars m.contributing_assets ++
  lit ",\"latest_ts\":" ++ (Char.ofNat 34 :: isoformatChars m.latest_ts ++ [Char.ofNat 34]) ++
  lit ",\"metric_name\":" ++ stringChars m.metric_name ++
  lit ",\"unit\":" ++ optStringChars m.unit ++ [rbrace]

/-- One metric of the canonical fingerprint structure, serialized with
`json.dumps(..., sort_keys=True, separators=(",", ":"))`: keys appear in sorted
order, starting with `aggregated_value`. -/
def serializeMetricChars (m : DashboardMetric) : List Char :=
  (lbrace :: lit "\"aggregated_value\":") ++ ratChars m.aggregated_value ++
    serializeMetricTail m

/-- The comma-separated metric array elements. -/
def serializeMetricsList : List DashboardMetric → List Char
  | [] => []
  | [m] => serializeMetricChars m
  | m :: m' :: rest =>
    serializeMetricChars m ++ Char.ofNat 44 :: serializeMetricsList (m' :: rest)

/-- The serialized characters a metric list contributes before a given
position: each earlier metric followed by a comma separator. -/
def preChunk : List DashboardMetric → List Char
  | [] => []
  | m :: rest => serializeMetricChars m ++ Char.ofNat 44 :: preChunk rest

/-- The serialized characters a metric list contributes after a given
position: a comma separator and the remaining serialized metrics. -/
def postChunk : List DashboardMetric → List Char
  | [] => []
  | m :: rest => Char.ofNat 44 :: serializeMetricsList (m :: rest)

/-- The canonical fingerprint payload: `facility_id` and the metric sequence —
`generated_at` never enters — serialized with deterministic key order and
`(",", ":")` separators. -/
def payloadChars (s : DashboardSummary) : List Char :=
  lbrace :: (lit "\"facility_id\":" ++ natChars s.facility_id) ++
    (lit ",\"metrics\":[" ++ serializeMetricsList s.metrics) ++
  [Char.ofNat 93, rbrace]

/-- UTF-8 encoding of one character (`payload.encode("utf-8")`). -/
def utf8Bytes (c : Char) : List Nat :=
  let n := c.toNat
  if n < 128 then [n]
  else if n < 2048 then [192 + n / 64, 128 + n % 64]
  else if n < 65536 then [224 + n / 4096, 128 + (n / 64) % 64, 128 + n % 64]
  else [240 + n / 262144, 128 + (n / 4096) % 64, 128 + (n / 64) % 64, 128 + n % 64]

/-- The UTF-8 bytes of the canonical payload. -/
def payloadBytes (s : DashboardSummary) : List Nat :=
  ((payloadChars s).map utf8Bytes).flatten

/-! ### SHA-256 (the `hashlib.sha256(...).hexdigest()` step), FIPS 180-4 -/

/-- Truncation to a 32-bit word. -/
def w32 (n : Nat) : Nat := n % 4294967296

/-- Right rotation of a 32-bit word by `k` bits. -/
def rotr32 (x k : Nat) : Nat := w32 (x / 2 ^ k + x % 2 ^ k * 2 ^ (32 - k))

/-- σ₀. -/
def ssig0 (x : Nat) : Nat := rotr32 x 7 ^^^ rotr32 x 18 ^^^ x / 2 ^ 3

/-- σ₁. -/
def ssig1 (x : Nat) : Nat := rotr32 x 17 ^^^ rotr32 x 19 ^^^ x / 2 ^ 10

/-- Σ₀. -/
def bsig0 (x : Nat) : Nat := rotr32 x 2 ^^^ rotr32 x 13 ^^^ rotr32 x 22

/-- Σ₁. -/
def bsig1 (x : Nat) : Nat := rotr32 x 6 ^^^ rotr32 x 11 ^^^ rotr32 x 25

/-- The 64 SHA-256 round constants of FIPS 180-4 (the fractional parts of the
cube roots of the first 64 primes), written in decimal. -/
def sha256K : List Nat :=
  [1116352408, 1899447441, 3049323471, 3921009573, 961987163, 1508970993,
   2453635748, 2870763221, 3624381080, 310598401, 607225278, 1426881987,
   1925078388, 2162078206, 2614888103, 3248222580, 3835390401, 4022224774,
   264347078, 604807628, 770255983, 1249150122, 1555081692, 1996064986,
   2554220882, 2821834349, 2952996808, 3210313671, 3336571891, 3584528711,
   113926993, 338241895, 666307205, 773529912, 1294757372, 1396182291,
   1695183700, 1986661051, 2177026350, 2456956037, 2730485921, 2820302411,
   3259730800, 3345764771, 3516065817, 3600352804, 4094571909, 275423344,
   430227734, 506948616, 659060556, 883997877, 958139571, 1322822218,
   1537002063, 1747873779, 1955562222, 2024104815, 2227730452, 2361852424,
   2428436474, 2756734187, 3204031479, 3329325298]

/-- Big-endian bytes of a number, fixed width. -/
def beBytes : Nat → Nat → List Nat
  | 0, _ => []
  | k + 1, n => beBytes k (n / 256) ++ [n % 256]

/-- A big-endian word from a byte list. -/
def beWord (bs : List Nat) : Nat := bs.foldl (fun a b => 256 * a + b) 0

/-- Split a list into chunks of `k` elements. -/
def chunkList (k : Nat) (l : List Nat) : List (List Nat) :=
  if l = [] ∨ k = 0 then [] else l.take k :: chunkList k (l.drop k)
termination_by l.length
decreasing_by
  simp only [List.length_drop]
  rcases l with _ | ⟨a, l⟩
  · simp_all
  · simp only [List.length_cons]; omega

/-- SHA-256 message padding: `0x80`, zeros to 56 mod 64, then the bit length as
eight big-endian bytes. -/
def sha256Pad (msg : List Nat) : List Nat :=
  msg ++ 128 :: List.replicate ((119 - msg.length % 64) % 64) 0 ++ beBytes 8 (8 * msg.length)

/-- The eight-word SHA-256 state. -/
structure Hash8 where
  a : Nat
  b : Nat
  c : Nat
  d : Nat
  e : Nat
  f : Nat
  g : Nat
  h : Nat
deriving DecidableEq, Repr

/-- Extend 16 message-schedule words to 64. -/
def extendW (w : List Nat) : List Nat :=
  (List.range 48).foldl (fun acc _ =>
    let n := acc.length
    acc ++ [w32 (ssig1 (acc.getD (n - 2) 0) + acc.getD (n - 7) 0 +
      ssig0 (acc.getD (n - 15) 0) + acc.getD (n - 16) 0)]) w

/-- One SHA-256 round. -/
def sha256Round (s : Hash8) (kw : Nat × Nat) : Hash8 :=
  let ch := s.e &&& s.f ^^^ (s.e ^^^ 4294967295) &&& s.g
  let maj := s.a &&& s.b ^^^ s.a &&& s.c ^^^ s.b &&& s.c
  let t1 := w32 (s.h + bsig1 s.e + ch + kw.1 + kw.2)
  let t2 := w32 (bsig0 s.a + maj)
  ⟨w32 (t1 + t2), s.a, s.b, s.c, w32 (s.d + t1), s.e, s.f, s.g⟩

/-- Compression of one 64-byte block. -/
def sha256Block (s : Hash8) (block : List Nat) : Hash8 :=
  let w := extendW ((chunkList 4 block).map beWord)
  let t := (sha256K.zip w).foldl sha256Round s
  ⟨w32 (s.a + t.a), w32 (s.b + t.b), w32 (s.c + t.c), w32 (s.d + t.d),
   w32 (s.e + t.e), w32 (s.f + t.f), w32 (s.g + t.g), w32 (s.h + t.h)⟩

/-- The SHA-256 initial state of FIPS 180-4 (the fractional parts of the
square roots of the first 8 primes), written in decimal. -/
def sha256Init : Hash8 :=
  ⟨1779033703, 3144134277, 1013904242, 2773480762,
   1359893119, 2600822924, 528734635, 1541459225⟩

/-- The final SHA-256 state of a byte message. -/
def sha256Words (msg : List Nat) : Hash8 :=
  (chunkList 64 (sha256Pad msg)).foldl sha256Block sha256Init

/-- The 256-bit SHA-256 digest as one natural number (big-endian word order,
exactly the number the 64-character `hexdigest` spells). -/
def sha256Nat (msg : List Nat) : Nat :=
  let d := sha256Words msg
  [d.a, d.b, d.c, d.d, d.e, d.f, d.g, d.h].foldl
    (fun acc x => acc * 4294967296 + x % 4294967296) 0

/-- One lowercase hex digit. -/
def hexDigitChar (d : Nat) : Char :=
  if d % 16 < 10 then Char.ofNat (48 + d % 16) else Char.ofNat (87 + d % 16)

/-- Fixed-width lowercase hex rendering, most significant digit first. -/
def hexPad : Nat → Nat → List Char
  | 0, _ => []
  | k + 1, n => hexPad k (n / 16) ++ [hexDigitChar (n % 16)]

/-- `_build_dashboard_summary_etag`: the quoted 64-character hex digest of the
canonical payload. -/
def build_dashboard_summary_etag (s : DashboardSummary) : List Char :=
  Char.ofNat 34 :: hexPad 64 (sha256Nat (payloadBytes s)) ++ [Char.ofNat 34]

/-! ### Conditional-request evaluation (`_normalize_etag_value`, `_etag_matches`) -/

/-- Python `str.split(sep)` for a one-character separator (keeps empty parts). -/
def splitChars (sep : Char) (cs : List Char) : List (List Char) :=
  cs.foldr (fun c acc =>
    if c = sep then [] :: acc
    else match acc with
      | [] => [[c]]
      | g :: gs => (c :: g) :: gs) [[]]

/-- The whitespace class stripped by Python `str.strip()` (ASCII portion). -/
def isStripChar (c : Char) : Bool :=
  c = Char.ofNat 32 ∨ c = Char.ofNat 9 ∨ c = Char.ofNat 10 ∨
    c = Char.ofNat 13 ∨ c = Char.ofNat 11 ∨ c = Char.ofNat 12

/-- Python `str.strip()`: drop whitespace from both ends. -/
def stripChars (cs : List Char) : List Char :=
  ((cs.dropWhile isStripChar).reverse.dropWhile isStripChar).reverse

/-- `_normalize_etag_value`: strip, drop one leading weak marker `W/`, strip. -/
def normalize_etag_value (raw_value : List Char) : List Char :=
  match stripChars raw_value with
  | 'W' :: '/' :: rest => stripChars rest
  | v => v

/-- `_etag_matches`: split the header on commas; the member matches when some
non-empty stripped candidate is the wildcard `*` or normalizes to the
normalized current token. -/
def etag_matches (if_none_match current_etag : List Char) : Bool :=
  let normalized_current := normalize_etag_value current_etag
  (splitChars (Char.ofNat 44) if_none_match).any (fun v =>
    let candidate := stripChars v
    if candidate = [] then false
    else if candidate = [Char.ofNat 42] then true
    else normalize_etag_value candidate == normalized_current)

/-- The dashboard route’s outcome: a bodyless 304 repeating the token, or the
full summary with the token. -/
inductive SummaryResponse where
  | notModified (token : List Char)
  | fresh (body : DashboardSummary) (token : List Char)
deriving DecidableEq, Repr

/-- `read_dashboard_summary`: compute the summary (404 propagates), then return
304 exactly when an `If-None-Match` header is present, non-empty and matches
the current token; both outcomes carry the token (together with the
`"private, must-revalidate"` cache directive). -/
def read_dashboard_summary (db : DB) (facility_id : Nat) (now : Nat)
    (if_none_match : Option (List Char)) : Except HTTPError SummaryResponse :=
  match get_dashboard_summary db facility_id now with
  | .error e => .error e
  | .ok summary =>
    let token := build_dashboard_summary_etag summary
    let cond := match if_none_match with
      | none => false
      | some hdr => !(hdr == []) && etag_matches hdr token
    if cond then .ok (.notModified token) else .ok (.fresh summary token)

/-! ### Concrete stores used as witnesses -/

/-- The empty store. -/
def emptyDb : DB := ⟨[], [], [], []⟩

/-- The spec §8 dashboard scenario: one facility with assets A and B and one
metric X, readings `(A, X, ts=10, v=5)`, `(A, X, ts=20, v=7)`,
`(B, X, ts=15, v=3)`. -/
def exampleDb : DB :=
  ⟨[⟨1, "Plant", none, 0⟩],
   [⟨1, 1, "assetA", none, 0⟩, ⟨2, 1, "assetB", none, 0⟩],
   [⟨1, "metric_x", none⟩],
   [⟨1, 1, 1, 1, 10, 5⟩, ⟨2, 1, 1, 1, 20, 7⟩, ⟨3, 1, 2, 1, 15, 3⟩]⟩

/-- The two newest joined rows of `exampleDb`, as returned by the snapshot
query with `limit = 2`. -/
def examplePage : List SensorReading :=
  [⟨2, 1, 1, "assetA", 1, "metric_x", none, 20, 7⟩,
   ⟨3, 1, 2, "assetB", 1, "metric_x", none, 15, 3⟩]

/-- All joined rows of `exampleDb` in the latest-first snapshot order. -/
def exampleSnapshot : List SensorReading :=
  [⟨2, 1, 1, "assetA", 1, "metric_x", none, 20, 7⟩,
   ⟨3, 1, 2, "assetB", 1, "metric_x", none, 15, 3⟩,
   ⟨1, 1, 1, "assetA", 1, "metric_x", none, 10, 5⟩]

/-- First ascending cursor page of `exampleDb` (cursor `(0,0)`, limit 2). -/
def exampleAscPage1 : List SensorReading :=
  [⟨1, 1, 1, "assetA", 1, "metric_x", none, 10, 5⟩,
   ⟨3, 1, 2, "assetB", 1, "metric_x", none, 15, 3⟩]

/-- The last row of the first ascending cursor page. -/
def exampleRl : SensorReading := ⟨3, 1, 2, "assetB", 1, "metric_x", none, 15, 3⟩

/-- Second ascending cursor page of `exampleDb` (cursor `(15,3)`). -/
def exampleAscPage2 : List SensorReading :=
  [⟨2, 1, 1, "assetA", 1, "metric_x", none, 20, 7⟩]

/-! ### Shared helper lemmas -/

/-- Decompose a successful `list_sensor_readings` call: validation passed and
the result is the limited, ordered, filtered join. -/
theorem list_sensor_readings_ok_elim {db : DB} {fid aid : Option Nat} {mn : Option String}
    {st en ats aftid : Option Nat} {L : Nat} {l : List SensorReading}
    (h : list_sensor_readings db fid aid mn st en ats aftid L = .ok l) :
    rangeInvalid st en = false ∧ cursorInvalid ats aftid = false ∧
    l = (match ats with
      | none => List.insertionSort tsIdGE
          ((joinedRows db).filter (rowPasses fid aid mn st en ats aftid))
      | some _ => List.insertionSort tsIdLE
          ((joinedRows db).filter (rowPasses fid aid mn st en ats aftid))).take L := by
  unfold list_sensor_readings at h
  by_cases hr : rangeInvalid st en
  · rw [if_pos hr] at h; cases h
  · rw [if_neg hr] at h
    by_cases hc : cursorInvalid ats aftid
    · rw [if_pos hc] at h; cases h
    · rw [if_neg hc] at h
      refine ⟨by simpa using hr, by simpa using hc, ?_⟩
      simp only [Except.ok.injEq] at h
      exact h.symm

/-- Read off the individual filter clauses from a passing row. -/
theorem rowPasses_spec {fid aid : Option Nat} {mn : Option String}
    {st en ats aftid : Option Nat} {r : SensorReading}
    (h : rowPasses fid aid mn st en ats aftid r = true) :
    (∀ v, fid = some v → r.facility_id = v) ∧
    (∀ v, aid = some v → r.asset_id = v) ∧
    (∀ s, mn = some s → s ≠ "" → r.metric_name = s) ∧
    (∀ v, st = some v → v ≤ r.ts) ∧
    (∀ v, en = some v → r.ts ≤ v) ∧
    (∀ t i, ats = some t → aftid = some i → t < r.ts ∨ (r.ts = t ∧ i < r.id)) := by
  simp only [rowPasses, optClauseB, Bool.and_eq_true] at h
  obtain ⟨⟨⟨⟨⟨h1, h2⟩, h3⟩, h4⟩, h5⟩, h6⟩ := h
  refine ⟨?_, ?_, ?_, ?_, ?_, ?_⟩
  · intro v hv; subst hv; simpa using h1
  · intro v hv; subst hv; simpa using h2
  · intro s hs hne; subst hs; simp only [if_neg hne] at h3; simpa using h3
  · intro v hv; subst hv; simpa using h4
  · intro v hv; subst hv; simpa using h5
  · intro t i ht hi; subst ht; subst hi
    simp only [Bool.or_eq_true, Bool.and_eq_true, decide_eq_true_eq, beq_iff_eq] at h6
    omega

/-- Members of the returned page are members of the filtered join. -/
theorem mem_base_of_mem_take {r : SensorReading → SensorReading → Prop} [DecidableRel r]
    {base l : List SensorReading} {L : Nat} {x : SensorReading}
    (hl : l = (List.insertionSort r base).take L) (hx : x ∈ l) : x ∈ base := by
  subst hl
  exact (List.perm_insertionSort r base).mem_iff.mp (List.take_subset _ _ hx)

/-- The returned page is sorted. -/
theorem sorted_of_take_sort {r : SensorReading → SensorReading → Prop} [DecidableRel r]
    [IsTotal SensorReading r] [IsTrans SensorReading r]
    {base l : List SensorReading} {L : Nat}
    (hl : l = (List.insertionSort r base).take L) : l.Pairwise r := by
  subst hl
  exact List.Pairwise.sublist (List.take_sublist _ _) (List.sorted_insertionSort r base)

/-- Every element of a pairwise-sorted list is related to its last element
(or is the last element itself). -/
theorem pairwise_rel_getLast {α : Type} {r : α → α → Prop} :
    ∀ {l : List α}, l.Pairwise r → ∀ {x y : α}, x ∈ l → l.getLast? = some y → r x y ∨ x = y := by
  intro l
  induction l with
  | nil => intro _ x y hx; cases hx
  | cons a t ih =>
    intro hp x y hx hy
    rcases t with _ | ⟨b, t2⟩
    · simp only [List.getLast?_singleton, Option.some.injEq] at hy
      simp only [List.mem_singleton] at hx
      right; rw [hx, hy]
    · have hy' : (b :: t2).getLast? = some y := by
        simpa [List.getLast?_cons_cons] using hy
      rcases List.mem_cons.mp hx with hxa | hxt
      · subst hxa
        left
        have hmem : y ∈ b :: t2 := by
          obtain ⟨hne, heq⟩ := List.mem_getLast?_eq_getLast (Option.mem_def.mpr hy')
          rw [heq]
          exact List.getLast_mem hne
        exact (List.pairwise_cons.mp hp).1 y hmem
      · exact ih (List.pairwise_cons.mp hp).2 hxt hy'

/-- `tsIdLE` together with a strict bound in the other direction is absurd. -/
theorem tsIdLE_not_lt {a b : SensorReading} (h : tsIdLE a b) (h' : tsIdLT b a) : False := by
  unfold tsIdLE at h; unfold tsIdLT at h'; omega

/-- `tsIdLE` upgrades to `tsIdLT` when the ids differ. -/
theorem tsIdLT_of_le_ne {a b : SensorReading} (h : tsIdLE a b) (hne : a.id ≠ b.id) : tsIdLT a b := by
  unfold tsIdLE at h; unfold tsIdLT; omega

/-- `joinReading` preserves the reading id. -/
theorem joinReading_id {db : DB} {sr : SensorReadingRow} {x : SensorReading}
    (h : joinReading db sr = some x) : x.id = sr.id := by
  unfold joinReading at h
  rcases ha : db.assets.find? (fun a => a.id == sr.asset_id) with _ | a <;>
    rcases hm : db.metrics.find? (fun m => m.id == sr.metric_id) with _ | m <;>
      rw [ha, hm] at h <;> cases h
  rfl

/-- The ids of the joined rows form a sublist of the reading ids. -/
theorem joinedRows_ids_sublist (db : DB) :
    ((joinedRows db).map (fun r => r.id)).Sublist (db.readings.map (fun r => r.id)) := by
  unfold joinedRows
  induction db.readings with
  | nil => simp
  | cons a t ih =>
    rcases hj : joinReading db a with _ | x
    · simp only [List.filterMap_cons, hj, List.map_cons]
      exact ih.trans (List.sublist_cons_self _ _)
    · simp only [List.filterMap_cons, hj, List.map_cons, joinReading_id hj]
      exact ih.cons₂ _

/-- Distinct reading ids give distinct joined-row ids. -/
theorem joinedRows_ids_nodup {db : DB} (h : (db.readings.map (fun r => r.id)).Nodup) :
    ((joinedRows db).map (fun r => r.id)).Nodup :=
  h.sublist (joinedRows_ids_sublist db)

/-- The fields of a successfully built dashboard metric card that come straight
from its group key. -/
theorem buildDashboardMetric_fields {name : String} {unit : Option String}
    {rows : List SensorReadingRow} {m : DashboardMetric}
    (h : buildDashboardMetric name unit rows = some m) :
    m.metric_name = name ∧ m.unit = unit ∧
      m.aggregation = get_default_metric_aggregation name := by
  cases rows with
  | nil => cases h
  | cons r0 rest =>
    simp only [buildDashboardMetric, Option.some.injEq] at h
    subst h
    exact ⟨rfl, rfl, rfl⟩

/-! ### C9: the default-aggregation rule -/

/-- C9 (confirmed).  The default aggregation is `"sum"` exactly for the fixed
lookup set `{power_kw, flow_l_min}` and `"avg"` for every other metric name;
`power_kw` maps to `"sum"`, `temperature_c` to `"avg"`, and every metric card
produced by the dashboard summary carries the default aggregation of its
metric name. -/
theorem C9_default_aggregation_rule :
    (∀ name : String,
      (get_default_metric_aggregation name = "sum" ↔ (name = "power_kw" ∨ name = "flow_l_min")) ∧
      (get_default_metric_aggregation name = "avg" ↔ ¬(name = "power_kw" ∨ name = "flow_l_min"))) ∧
    get_default_metric_aggregation "power_kw" = "sum" ∧
    get_default_metric_aggregation "temperature_c" = "avg" ∧
    (∀ (db : DB) (fid now : Nat) (s : DashboardSummary),
      get_dashboard_summary db fid now = .ok s →
      ∀ m ∈ s.metrics, m.aggregation = get_default_metric_aggregation m.metric_name) := by
  have hsumavg : ("sum" : String) ≠ "avg" := by decide
  refine ⟨?_, by decide, by decide, ?_⟩
  · intro name
    unfold get_default_metric_aggregation
    by_cases h : name = "power_kw" ∨ name = "flow_l_min"
    · have hb : (name == "power_kw" || name == "flow_l_min") = true := by
        rcases h with h | h <;> subst h <;> simp
      rw [if_pos hb]
      constructor
      · exact ⟨fun _ => h, fun _ => rfl⟩
      · exact ⟨fun hc => absurd hc hsumavg, fun hc => absurd h hc⟩

    · have hb : ¬((name == "power_kw" || name == "flow_l_min") = true) := by
        simp only [Bool.or_eq_true, beq_iff_eq]; exact h
      rw [if_neg hb]
      constructor
      · exact ⟨fun hc => absurd hc hsumavg.symm, fun hc => absurd hc h⟩
      · exact ⟨fun _ => h, fun _ => rfl⟩
  · intro db fid now s h m hm
    unfold get_dashboard_summary at h
    rcases hrow : get_facility_row db fid with _ | f <;> rw [hrow] at h
    · cases h
    · simp only [Except.ok.injEq] at h
      subst h
      simp only [dashboardMetrics, List.mem_filterMap] at hm
      obtain ⟨k, -, hbuild⟩ := hm
      obtain ⟨h1, -, h3⟩ := buildDashboardMetric_fields hbuild
      rw [h3, h1]

/-! ### C10: an empty metric name imposes no filter -/

/-- C10 (confirmed).  A `metric_name` equal to the empty string contributes no
predicate clause (Python truthiness), so the query result is identical to the
same query without a metric-name filter. -/
theorem C10_empty_metric_name_is_no_filter (db : DB) (fid aid : Option Nat)
    (st en ats aftid : Option Nat) (L : Nat) :
    list_sensor_readings db fid aid (some "") st en ats aftid L =
      list_sensor_readings db fid aid none st en ats aftid L := by
  unfold list_sensor_readings
  have hrp : rowPasses fid aid (some "") st en ats aftid =
      rowPasses fid aid none st en ats aftid := by
    funext r
    simp [rowPasses]
  rw [hrp]

/-- Length bound and predicate satisfaction for every successful query result. -/
theorem list_sensor_readings_ok_mem {db : DB} {fid aid : Option Nat} {mn : Option String}
    {st en ats aftid : Option Nat} {L : Nat} {l : List SensorReading}
    (h : list_sensor_readings db fid aid mn st en ats aftid L = .ok l) :
    l.length ≤ L ∧ ∀ r ∈ l, r ∈ joinedRows db ∧
      rowPasses fid aid mn st en ats aftid r = true := by
  obtain ⟨-, -, hl⟩ := list_sensor_readings_ok_elim h
  rcases ats with _ | t
  · subst hl
    refine ⟨by simp [List.length_take], ?_⟩
    intro r hr
    exact List.mem_filter.mp (mem_base_of_mem_take rfl hr)
  · subst hl
    refine ⟨by simp [List.length_take], ?_⟩
    intro r hr
    exact List.mem_filter.mp (mem_base_of_mem_take rfl hr)

/-! ### C7: input-validation failures -/

/-- C7 (corrected).  `start > end` always fails with the invalid-range error;
a split cursor pair fails with the invalid-cursor error whenever the range
check passes — the range check runs first, so an input violating both fails
with the invalid-range error (see the counterexample). -/
theorem C7_validation_errors (db : DB) (fid aid : Option Nat) (mn : Option String)
    (st en ats aftid : Option Nat) (L : Nat) :
    (∀ s e, st = some s → en = some e → e < s →
      list_sensor_readings db fid aid mn st en ats aftid L = .error invalidRangeError) ∧
    (ats.isSome ≠ aftid.isSome → (∀ s e, st = some s → en = some e → s ≤ e) →
      list_sensor_readings db fid aid mn st en ats aftid L = .error invalidCursorError) := by
  constructor
  · intro s e hs he hlt
    subst hs; subst he
    unfold list_sensor_readings
    rw [if_pos (by simpa [rangeInvalid] using hlt)]
  · intro hxor hrange
    have hr : rangeInvalid st en = false := by
      rcases st with _ | s
      · simp [rangeInvalid]
      · rcases en with _ | e
        · simp [rangeInvalid]
        · simp only [rangeInvalid, decide_eq_false_iff_not]
          exact Nat.not_lt.mpr (hrange s e rfl rfl)
    have hc : cursorInvalid ats aftid = true := by
      simpa [cursorInvalid, bne_iff_ne] using hxor
    unfold list_sensor_readings
    rw [if_neg (by simp [hr]), if_pos hc]

/-- C7 counterexample: with `start=2 > end=1` and only `after_ts` supplied, the
query fails with the invalid-range error, not the invalid-cursor error the
claim demands for every split cursor pair. -/
theorem C7_counterexample :
    list_sensor_readings emptyDb none none none (some 2) (some 1) (some 5) none 500 =
      .error invalidRangeError ∧ invalidRangeError ≠ invalidCursorError := by
  constructor
  · decide
  · decide

/-! ### C1: unknown facility behaviour -/

/-- C1 (corrected).  Facility-details lookup and dashboard-summary computation
fail with the 404 not-found error when the facility row is missing; the
sensor-readings query with a `facility_id` filter performs no facility
existence check and instead succeeds (with only rows of that facility, hence
an empty list when the facility is unknown and no readings carry its id). -/
theorem C1_unknown_facility (db : DB) (fid now : Nat) (aid : Option Nat)
    (mn : Option String) (st en ats aftid : Option Nat) (L : Nat)
    (h : get_facility_row db fid = none)
    (hr : rangeInvalid st en = false) (hc : cursorInvalid ats aftid = false) :
    get_facility_details db fid = .error (notFoundError fid) ∧
    get_dashboard_summary db fid now = .error (notFoundError fid) ∧
    ∃ l, list_sensor_readings db (some fid) aid mn st en ats aftid L = .ok l ∧
      ∀ r ∈ l, r.facility_id = fid := by
  refine ⟨by unfold get_facility_details; rw [h], by unfold get_dashboard_summary; rw [h], ?_⟩
  have hok : list_sensor_readings db (some fid) aid mn st en ats aftid L =
      .ok ((match ats with
        | none => List.insertionSort tsIdGE
            ((joinedRows db).filter (rowPasses (some fid) aid mn st en ats aftid))
        | some _ => List.insertionSort tsIdLE
            ((joinedRows db).filter (rowPasses (some fid) aid mn st en ats aftid))).take L) := by
    unfold list_sensor_readings
    rw [if_neg (by simp [hr]), if_neg (by simp [hc])]
  refine ⟨_, hok, ?_⟩
  intro r hrmem
  obtain ⟨-, hmem⟩ := list_sensor_readings_ok_mem hok
  exact ((rowPasses_spec (hmem r hrmem).2).1 fid rfl)

/-- C1 counterexample: on the empty store (facility 1 does not exist) the
sensor-readings query filtered to facility 1 returns an empty successful
result instead of failing with the not-found error. -/
theorem C1_counterexample :
    get_facility_row emptyDb 1 = none ∧
    list_sensor_readings emptyDb (some 1) none none none none none none 500 = .ok [] ∧
    (Except.ok ([] : List SensorReading) : Except HTTPError (List SensorReading)) ≠
      .error (notFoundError 1) := by
  refine ⟨by decide, by decide, by decide⟩

/-! ### C8: limit cap, range containment, boundary validation -/

/-- C8 (confirmed).  Every successful query returns at most `limit` rows, each
row's timestamp lies in `[start, end]` when both bounds are supplied, the
route boundary rejects a `limit` outside `[1, 5000]` with a validation error,
and an omitted `limit` defaults to 500. -/
theorem C8_limit_and_range (db : DB) (fid aid : Option Nat) (mn : Option String)
    (st en ats aftid : Option Nat) (L : Nat) (l : List SensorReading)
    (h : list_sensor_readings db fid aid mn st en ats aftid L = .ok l) :
    l.length ≤ L ∧
    (∀ s e, st = some s → en = some e → ∀ r ∈ l, s ≤ r.ts ∧ r.ts ≤ e) ∧
    (∀ li : Int, li < 1 ∨ 5000 < li →
      read_sensor_readings db fid aid mn st en ats aftid (some li) =
        .error limitOutOfRangeError) ∧
    (afterIdParamInvalid aftid = false →
      read_sensor_readings db fid aid mn st en ats aftid none =
        list_sensor_readings db fid aid mn st en ats aftid 500) := by
  obtain ⟨hlen, hmem⟩ := list_sensor_readings_ok_mem h
  refine ⟨hlen, ?_, ?_, ?_⟩
  · intro s e hs he r hrmem
    have hspec := rowPasses_spec (hmem r hrmem).2
    exact ⟨hspec.2.2.2.1 s hs, hspec.2.2.2.2.1 e he⟩
  · intro li hli
    unfold read_sensor_readings
    rw [if_pos (by rcases hli with hli | hli <;> simp [limitInvalid] <;> omega)]
  · intro haft
    unfold read_sensor_readings
    rw [if_neg (by simp [limitInvalid]), if_neg (by simp [haft])]

/-- Witness for C7: both validation failures observed on concrete inputs. -/
theorem C7_witness :
    list_sensor_readings emptyDb none none none (some 3) (some 1) none none 500 =
      .error invalidRangeError ∧
    list_sensor_readings emptyDb none none none none none (some 5) none 500 =
      .error invalidCursorError :=
  ⟨(C7_validation_errors emptyDb none none none (some 3) (some 1) none none 500).1
      3 1 rfl rfl (by decide),
   (C7_validation_errors emptyDb none none none none none (some 5) none 500).2
      (by decide) (by intro s e hs _; cases hs)⟩

/-- Witness for C1: the three behaviours at the empty store with facility 1. -/
theorem C1_witness :
    get_facility_details emptyDb 1 = .error (notFoundError 1) ∧
    get_dashboard_summary emptyDb 1 0 = .error (notFoundError 1) ∧
    ∃ l, list_sensor_readings emptyDb (some 1) none none none none none none 500 = .ok l ∧
      ∀ r ∈ l, r.facility_id = 1 :=
  C1_unknown_facility emptyDb 1 0 none none none none none none 500
    (by decide) (by decide) (by decide)

/-- Witness for C8: evaluated at the example store with `limit = 2`. -/
theorem C8_witness :
    list_sensor_readings exampleDb none none none none none none none 2 = .ok examplePage ∧
    (examplePage.length ≤ 2 ∧
     (∀ s e, (none : Option Nat) = some s → (none : Option Nat) = some e →
        ∀ r ∈ examplePage, s ≤ r.ts ∧ r.ts ≤ e) ∧
     (∀ li : Int, li < 1 ∨ 5000 < li →
        read_sensor_readings exampleDb none none none none none none none (some li) =
          .error limitOutOfRangeError) ∧
     (afterIdParamInvalid none = false →
        read_sensor_readings exampleDb none none none none none none none none =
          list_sensor_readings exampleDb none none none none none none none 500)) :=
  ⟨by decide,
   C8_limit_and_range exampleDb none none none none none none none 2 examplePage (by decide)⟩

/-- A weak bound composed with a strict bound stays weak. -/
theorem tsIdLE_trans_lt {a b c : SensorReading} (h : tsIdLE a b) (h' : tsIdLT b c) :
    tsIdLE a c := by
  unfold tsIdLE at *; unfold tsIdLT at h'; omega

/-- The strict `(ts, id)` order is irreflexive. -/
theorem tsIdLT_irrefl (a : SensorReading) : ¬ tsIdLT a a := by
  unfold tsIdLT; omega

/-! ### C3: cursor predicate and the dual ordering -/

/-- C3 (confirmed).  With a cursor, every returned row satisfies the strict
`(ts, id) > (after_ts, after_id)` predicate on top of every supplied filter
and the page is ascending by `(ts, id)`; without a cursor the page is
descending by `(ts, id)`. -/
theorem C3_cursor_mode_and_order (db : DB) (fid aid : Option Nat) (mn : Option String)
    (st en : Option Nat) (a0 i0 : Nat) (L : Nat) (l l' : List SensorReading)
    (h : list_sensor_readings db fid aid mn st en (some a0) (some i0) L = .ok l)
    (h' : list_sensor_readings db fid aid mn st en none none L = .ok l') :
    (∀ r ∈ l,
      (a0 < r.ts ∨ (r.ts = a0 ∧ i0 < r.id)) ∧
      (∀ v, fid = some v → r.facility_id = v) ∧
      (∀ v, aid = some v → r.asset_id = v) ∧
      (∀ s, mn = some s → s ≠ "" → r.metric_name = s) ∧
      (∀ v, st = some v → v ≤ r.ts) ∧
      (∀ v, en = some v → r.ts ≤ v)) ∧
    l.Pairwise tsIdLE ∧ l'.Pairwise tsIdGE := by
  obtain ⟨-, hmem⟩ := list_sensor_readings_ok_mem h
  obtain ⟨-, -, hl⟩ := list_sensor_readings_ok_elim h
  obtain ⟨-, -, hl'⟩ := list_sensor_readings_ok_elim h'
  refine ⟨?_, sorted_of_take_sort hl, sorted_of_take_sort hl'⟩
  intro r hr
  have hspec := rowPasses_spec (hmem r hr).2
  exact ⟨hspec.2.2.2.2.2 a0 i0 rfl rfl, hspec.1, hspec.2.1, hspec.2.2.1,
    hspec.2.2.2.1, hspec.2.2.2.2.1⟩

/-- Witness for C3: the cursor `(10, 1)` page and the no-cursor snapshot on the
example store. -/
theorem C3_witness :
    list_sensor_readings exampleDb none none none none none (some 10) (some 1) 500 =
      .ok [⟨3, 1, 2, "assetB", 1, "metric_x", none, 15, 3⟩,
           ⟨2, 1, 1, "assetA", 1, "metric_x", none, 20, 7⟩] ∧
    ((∀ r ∈ [(⟨3, 1, 2, "assetB", 1, "metric_x", none, 15, 3⟩ : SensorReading),
             ⟨2, 1, 1, "assetA", 1, "metric_x", none, 20, 7⟩],
      (10 < r.ts ∨ (r.ts = 10 ∧ 1 < r.id)) ∧
      (∀ v, (none : Option Nat) = some v → r.facility_id = v) ∧
      (∀ v, (none : Option Nat) = some v → r.asset_id = v) ∧
      (∀ s, (none : Option String) = some s → s ≠ "" → r.metric_name = s) ∧
      (∀ v, (none : Option Nat) = some v → v ≤ r.ts) ∧
      (∀ v, (none : Option Nat) = some v → r.ts ≤ v)) ∧
     List.Pairwise tsIdLE [(⟨3, 1, 2, "assetB", 1, "metric_x", none, 15, 3⟩ : SensorReading),
       ⟨2, 1, 1, "assetA", 1, "metric_x", none, 20, 7⟩] ∧
     List.Pairwise tsIdGE exampleSnapshot) :=
  ⟨by decide,
   C3_cursor_mode_and_order exampleDb none none none none none 10 1 500 _ exampleSnapshot
     (by decide)
     (by decide)⟩

/-! ### C4: cursor pagination resumes without duplication or gaps -/

/-- C4 (confirmed).  For a static store with distinct reading ids: re-issuing a
cursor-mode query from the `(ts, id)` pair of the last row of a page yields
only unseen rows, the two pages concatenate in ascending `(ts, id)` order, and
the only matching rows missing from the second page are those beyond a full
page (no gaps). -/
theorem C4_cursor_pagination (db : DB)
    (hwf : (db.readings.map (fun r => r.id)).Nodup)
    (fid aid : Option Nat) (mn : Option String) (st en : Option Nat)
    (a0 i0 L1 L2 : Nat) (l1 l2 : List SensorReading) (rl : SensorReading)
    (h1 : list_sensor_readings db fid aid mn st en (some a0) (some i0) L1 = .ok l1)
    (hlast : l1.getLast? = some rl)
    (h2 : list_sensor_readings db fid aid mn st en (some rl.ts) (some rl.id) L2 = .ok l2) :
    (∀ r ∈ l2, r ∉ l1) ∧
    (l1 ++ l2).Pairwise tsIdLE ∧
    (∀ r ∈ joinedRows db, rowPasses fid aid mn st en (some rl.ts) (some rl.id) r = true →
      r ∉ l2 → l2.length = L2 ∧ ∀ s ∈ l2, tsIdLT s r) := by
  obtain ⟨-, -, hl1⟩ := list_sensor_readings_ok_elim h1
  obtain ⟨-, -, hl2⟩ := list_sensor_readings_ok_elim h2
  have hs1 : l1.Pairwise tsIdLE := sorted_of_take_sort hl1
  have hs2 : l2.Pairwise tsIdLE := sorted_of_take_sort hl2
  have hle1 : ∀ s ∈ l1, tsIdLE s rl ∨ s = rl := fun s hs => pairwise_rel_getLast hs1 hs hlast
  have hgt2 : ∀ r ∈ l2, tsIdLT rl r := by
    intro r hr
    obtain ⟨-, hmem2⟩ := list_sensor_readings_ok_mem h2
    have hcur := (rowPasses_spec (hmem2 r hr).2).2.2.2.2.2 rl.ts rl.id rfl rfl
    unfold tsIdLT
    omega
  refine ⟨?_, ?_, ?_⟩
  · intro r hr2 hr1
    rcases hle1 r hr1 with hle | heq
    · exact tsIdLE_not_lt hle (hgt2 r hr2)
    · exact tsIdLT_irrefl rl (heq ▸ hgt2 r hr2)
  · rw [List.pairwise_append]
    refine ⟨hs1, hs2, ?_⟩
    intro s hs r hr
    rcases hle1 s hs with hle | heq
    · exact tsIdLE_trans_lt hle (hgt2 r hr)
    · subst heq
      have := hgt2 r hr
      unfold tsIdLE
      unfold tsIdLT at this
      omega
  · intro r hrj hpass hnot
    have hrbase : r ∈ (joinedRows db).filter
        (rowPasses fid aid mn st en (some rl.ts) (some rl.id)) :=
      List.mem_filter.mpr ⟨hrj, hpass⟩
    have hrS2 : r ∈ List.insertionSort tsIdLE ((joinedRows db).filter
        (rowPasses fid aid mn st en (some rl.ts) (some rl.id))) :=
      (List.perm_insertionSort _ _).mem_iff.mpr hrbase
    generalize hS2eq : List.insertionSort tsIdLE ((joinedRows db).filter
        (rowPasses fid aid mn st en (some rl.ts) (some rl.id))) = S2 at hrS2 hl2
    have hsplit : S2.take L2 ++ S2.drop L2 = S2 := List.take_append_drop _ _
    have hrdrop : r ∈ S2.drop L2 := by
      rcases List.mem_append.mp (by rw [hsplit]; exact hrS2) with hin | hin
      · exact absurd (hl2 ▸ hin) hnot
      · exact hin
    have hlenS2 : L2 < S2.length := by
      by_contra hle
      push_neg at hle
      rw [List.drop_eq_nil_of_le hle] at hrdrop
      cases hrdrop
    have hlen2 : l2.length = L2 := by
      rw [hl2]
      simp only [List.length_take]
      omega
    refine ⟨hlen2, ?_⟩
    intro s hsmem
    have hpairS2 : S2.Pairwise tsIdLE := by
      rw [← hS2eq]
      exact List.sorted_insertionSort tsIdLE _
    have hsplitPW := List.pairwise_append.mp (by rw [hsplit]; exact hpairS2)
    have hle : tsIdLE s r := hsplitPW.2.2 s (hl2 ▸ hsmem) r hrdrop
    have hnodupS2 : (S2.map (fun x => x.id)).Nodup := by
      rw [← hS2eq]
      have hsub : ((joinedRows db).filter
          (rowPasses fid aid mn st en (some rl.ts) (some rl.id))).Sublist (joinedRows db) :=
        List.filter_sublist _
      have hbase : (((joinedRows db).filter
          (rowPasses fid aid mn st en (some rl.ts) (some rl.id))).map (fun r => r.id)).Nodup :=
        (joinedRows_ids_nodup hwf).sublist (hsub.map (fun r => r.id))
      exact (((List.perm_insertionSort tsIdLE _).map (fun x => x.id)).nodup_iff).mpr hbase
    have hneq : s.id ≠ r.id := by
      have hpwne := (List.nodup_append.mp (by
        rw [← List.map_append, hsplit]
        exact hnodupS2)).2.2
      intro hid
      exact hpwne (List.mem_map_of_mem _ (hl2 ▸ hsmem)) (hid ▸ List.mem_map_of_mem _ hrdrop)
    exact tsIdLT_of_le_ne hle hneq

/-- Witness for C4: two consecutive cursor pages over the example store. -/
theorem C4_witness :
    (exampleDb.readings.map (fun r => r.id)).Nodup ∧
    list_sensor_readings exampleDb none none none none none (some 0) (some 0) 2 =
      .ok exampleAscPage1 ∧
    exampleAscPage1.getLast? = some exampleRl ∧
    list_sensor_readings exampleDb none none none none none (some 15) (some 3) 500 =
      .ok exampleAscPage2 ∧
    ((∀ r ∈ exampleAscPage2, r ∉ exampleAscPage1) ∧
     (exampleAscPage1 ++ exampleAscPage2).Pairwise tsIdLE ∧
     (∀ r ∈ joinedRows exampleDb,
       rowPasses none none none none none (some 15) (some 3) r = true →
       r ∉ exampleAscPage2 → exampleAscPage2.length = 500 ∧
         ∀ s ∈ exampleAscPage2, tsIdLT s r)) :=
  ⟨by decide, by decide, by decide, by decide,
   C4_cursor_pagination exampleDb (by decide) none none none none none 0 0 2 500
     exampleAscPage1 exampleAscPage2 exampleRl (by decide) (by decide) (by decide)⟩

/-! ### C2: the dashboard pipeline refines the spec’s latest-value reduction -/

/-- `pickMaxReading` returns `none` exactly on the empty partition. -/
theorem pickMaxReading_eq_none {l : List SensorReadingRow} :
    pickMaxReading l = none ↔ l = [] := by
  cases l with
  | nil => simp [pickMaxReading]
  | cons r rs =>
    rcases hp : pickMaxReading rs with _ | m'
    · simp [pickMaxReading, hp]
    · simp only [pickMaxReading, hp]
      constructor
      · intro h
        have h' : (if rKeyLT m' r then some r else some m') = none := h
        by_cases hlt : rKeyLT m' r
        · rw [if_pos hlt] at h'; cases h'
        · rw [if_neg hlt] at h'; cases h'
      · intro h
        cases h

/-- `pickMaxReading` selects a member that dominates the whole partition. -/
theorem pickMaxReading_spec {l : List SensorReadingRow} {m : SensorReadingRow}
    (h : pickMaxReading l = some m) : m ∈ l ∧ ∀ x ∈ l, rKeyLE x m := by
  induction l generalizing m with
  | nil => cases h
  | cons r rs ih =>
    simp only [pickMaxReading] at h
    rcases hp : pickMaxReading rs with _ | m' <;> rw [hp] at h
    · have hnil : rs = [] := pickMaxReading_eq_none.mp hp
      cases h
      subst hnil
      refine ⟨List.mem_singleton_self r, ?_⟩
      intro x hx
      rw [List.mem_singleton.mp hx]
      unfold rKeyLE; omega
    · obtain ⟨hmem', hmax'⟩ := ih hp
      have h' : (if rKeyLT m' r then some r else some m') = some m := h
      by_cases hlt : rKeyLT m' r
      · rw [if_pos hlt] at h'
        cases h'
        refine ⟨List.mem_cons_self r rs, ?_⟩
        intro x hx
        rcases List.mem_cons.mp hx with hx | hx
        · subst hx; unfold rKeyLE; omega
        · have h1 := hmax' x hx
          unfold rKeyLE at *
          unfold rKeyLT at hlt
          omega
      · rw [if_neg hlt] at h'
        cases h'
        refine ⟨List.mem_cons_of_mem r hmem', ?_⟩
        intro x hx
        rcases List.mem_cons.mp hx with hx | hx
        · subst hx
          unfold rKeyLE
          unfold rKeyLT at hlt
          omega
        · exact hmax' x hx

/-- The head of the `(ts DESC, id DESC)` insertion sort of a partition is a
member dominating the whole partition. -/
theorem insertionSort_head_max {l : List SensorReadingRow} {m : SensorReadingRow}
    (h : (List.insertionSort rKeyGE l).head? = some m) : m ∈ l ∧ ∀ x ∈ l, rKeyLE x m := by
  rcases hs : List.insertionSort rKeyGE l with _ | ⟨a, t⟩ <;> rw [hs] at h
  · cases h
  · have hperm : List.Perm (a :: t) l := by
      rw [← hs]
      exact List.perm_insertionSort rKeyGE l
    have hsorted : (a :: t).Pairwise rKeyGE := by
      rw [← hs]
      exact List.sorted_insertionSort rKeyGE l
    have hm : a = m := by simpa using h
    subst hm
    refine ⟨hperm.mem_iff.mp (List.mem_cons_self a t), ?_⟩
    intro x hx
    rcases List.mem_cons.mp (hperm.symm.mem_iff.mp hx) with hx | hx
    · subst hx; unfold rKeyLE; omega
    · exact (List.pairwise_cons.mp hsorted).1 x hx

/-- A `(ts, id)`-dominating member of a partition with distinct ids is unique. -/
theorem rkey_max_unique {l : List SensorReadingRow}
    (hnd : (l.map (fun r => r.id)).Nodup) {m1 m2 : SensorReadingRow}
    (h1 : m1 ∈ l ∧ ∀ x ∈ l, rKeyLE x m1) (h2 : m2 ∈ l ∧ ∀ x ∈ l, rKeyLE x m2) :
    m1 = m2 := by
  have ha := h1.2 m2 h2.1
  have hb := h2.2 m1 h1.1
  have hid : m1.id = m2.id := by unfold rKeyLE at ha hb; omega
  exact List.inj_on_of_nodup_map hnd h1.1 h2.1 hid

/-- With distinct reading ids, the `DISTINCT ON` scan and the spec’s explicit
per-partition maximum select the same latest readings. -/
theorem latestPerAssetMetric_eq_spec (db : DB) (fid : Nat)
    (h : (db.readings.map (fun r => r.id)).Nodup) :
    latestPerAssetMetric db fid = latestPerAssetMetricSpec db fid := by
  have hsubf : (facilityReadings db fid).Sublist db.readings := by
    unfold facilityReadings
    exact List.filter_sublist _
  have hrs : ((facilityReadings db fid).map (fun r => r.id)).Nodup :=
    h.sublist (hsubf.map (fun r => r.id))
  have hkey : ∀ k : Nat × Nat,
      (List.insertionSort rKeyGE (partitionRows (facilityReadings db fid) k)).head? =
        pickMaxReading (partitionRows (facilityReadings db fid) k) := by
    intro k
    have hsubp : (partitionRows (facilityReadings db fid) k).Sublist
        (facilityReadings db fid) := by
      unfold partitionRows
      exact List.filter_sublist _
    have hpart : ((partitionRows (facilityReadings db fid) k).map (fun r => r.id)).Nodup :=
      hrs.sublist (hsubp.map (fun r => r.id))
    rcases hhead : (List.insertionSort rKeyGE
        (partitionRows (facilityReadings db fid) k)).head? with _ | m
    · have hnil : List.insertionSort rKeyGE (partitionRows (facilityReadings db fid) k) = [] :=
        List.head?_eq_none_iff.mp hhead
      have : partitionRows (facilityReadings db fid) k = [] := by
        have hperm := List.perm_insertionSort rKeyGE
          (partitionRows (facilityReadings db fid) k)
        rw [hnil] at hperm
        exact hperm.symm.eq_nil
      rw [this]
      rfl
    · rcases hp : pickMaxReading (partitionRows (facilityReadings db fid) k) with _ | m'
      · have hnil : partitionRows (facilityReadings db fid) k = [] :=
          pickMaxReading_eq_none.mp hp
        rw [hnil] at hhead
        cases hhead
      · exact congrArg some (rkey_max_unique hpart (insertionSort_head_max hhead)
          (pickMaxReading_spec hp))
  simp only [latestPerAssetMetric, latestPerAssetMetricSpec]
  exact List.filterMap_congr (fun k _ => hkey k)

/-- C2 (confirmed).  For a store with distinct reading ids the dashboard
summary equals the spec’s algorithm — per `(asset_id, metric_id)` partition the
maximum-`(ts, id)` reading is selected, then grouped by metric name (and unit)
into sum/avg/min/max, latest timestamp and contribution count — and on the
spec’s concrete scenario it yields `sum = 10`, `avg = 5`, `min = 3`, `max = 7`,
`latest_ts = 20`, `contributing_assets = 2`. -/
theorem C2_dashboard_summary (db : DB) (fid now : Nat)
    (h : (db.readings.map (fun r => r.id)).Nodup) :
    get_dashboard_summary db fid now = computeSummarySpec db fid now ∧
    get_dashboard_summary exampleDb 1 0 = .ok ⟨1, 0,
      [⟨"metric_x", none, "avg", 10, 5, 3, 7, 20, 5, 2⟩]⟩ := by
  constructor
  · unfold get_dashboard_summary computeSummarySpec
    rw [latestPerAssetMetric_eq_spec db fid h]
  · have hl : latestPerAssetMetric exampleDb 1 =
        [⟨2, 1, 1, 1, 20, 7⟩, ⟨3, 1, 2, 1, 15, 3⟩] := by decide
    have hfac : get_facility_row exampleDb 1 = some ⟨1, "Plant", none, 0⟩ := by decide
    unfold get_dashboard_summary
    rw [hfac, hl]
    norm_num [dashboardMetrics, buildDashboardMetric, get_default_metric_aggregation,
      exampleDb, List.dedup, List.lookup, List.find?, List.filterMap_cons,
      List.filterMap_nil, List.foldl, List.map]
    decide

/-- Witness for C2: the refinement instantiated at the example store. -/
theorem C2_witness :
    (exampleDb.readings.map (fun r => r.id)).Nodup ∧
    (get_dashboard_summary exampleDb 1 0 = computeSummarySpec exampleDb 1 0 ∧
     get_dashboard_summary exampleDb 1 0 = .ok ⟨1, 0,
       [⟨"metric_x", none, "avg", 10, 5, 3, 7, 20, 5, 2⟩]⟩) :=
  ⟨by decide, C2_dashboard_summary exampleDb 1 0 (by decide)⟩

/-! ### C6: conditional-request evaluation -/

/-- C6 (confirmed).  The header matches exactly when some comma-separated
entry, stripped of whitespace, is the wildcard `*` or — after stripping an
optional weak prefix — equals the normalized current token; at the route, a
matching non-empty header yields the bodyless not-modified response repeating
the token and anything else yields the fresh response with the full body and
the token. -/
theorem C6_etag_evaluation (hdr cur : List Char)
    (h : normalize_etag_value cur ≠ []) :
    (etag_matches hdr cur = true ↔
      ∃ c ∈ (splitChars (Char.ofNat 44) hdr).map stripChars,
        c = [Char.ofNat 42] ∨ normalize_etag_value c = normalize_etag_value cur) ∧
    (∀ (db : DB) (fid now : Nat) (sum0 : DashboardSummary),
      get_dashboard_summary db fid now = .ok sum0 →
      (etag_matches hdr (build_dashboard_summary_etag sum0) = true → hdr ≠ [] →
        read_dashboard_summary db fid now (some hdr) =
          .ok (.notModified (build_dashboard_summary_etag sum0))) ∧
      (etag_matches hdr (build_dashboard_summary_etag sum0) = false →
        read_dashboard_summary db fid now (some hdr) =
          .ok (.fresh sum0 (build_dashboard_summary_etag sum0)))) := by
  constructor
  · unfold etag_matches
    rw [List.any_eq_true]
    constructor
    · rintro ⟨v, hv, hfv⟩
      refine ⟨stripChars v, List.mem_map_of_mem stripChars hv, ?_⟩
      by_cases hemp : stripChars v = []
      · rw [if_pos hemp] at hfv; cases hfv
      · rw [if_neg hemp] at hfv
        by_cases hstar : stripChars v = [Char.ofNat 42]
        · exact Or.inl hstar
        · rw [if_neg hstar] at hfv
          exact Or.inr (by simpa using hfv)
    · rintro ⟨c, hc, hcase⟩
      obtain ⟨v, hv, hvc⟩ := List.mem_map.mp hc
      refine ⟨v, hv, ?_⟩
      show (if stripChars v = [] then false
        else if stripChars v = [Char.ofNat 42] then true
        else normalize_etag_value (stripChars v) == normalize_etag_value cur) = true
      rcases hcase with hstar | heq
      · rw [hvc, hstar]
        rw [if_neg (by intro hx; cases hx), if_pos rfl]
      · rw [hvc]
        have hemp : c ≠ [] := by
          intro hnil
          rw [hnil] at heq
          exact h (heq.symm.trans (by decide))
        rw [if_neg hemp]
        by_cases hstar : c = [Char.ofNat 42]
        · rw [if_pos hstar]
        · rw [if_neg hstar]
          simpa using heq
  · intro db fid now sum0 hsum
    have hred : read_dashboard_summary db fid now (some hdr) =
        (if (!(hdr == []) && etag_matches hdr (build_dashboard_summary_etag sum0)) = true
         then .ok (.notModified (build_dashboard_summary_etag sum0))
         else .ok (.fresh sum0 (build_dashboard_summary_etag sum0))) := by
      unfold read_dashboard_summary
      rw [hsum]
    constructor
    · intro hmatch hne
      rw [hred, if_pos (by simp [hmatch, hne])]
    · intro hnomatch
      rw [hred, if_neg (by simp [hnomatch])]

/-- Witness for C6: the current token with a weak prefix matches, at a concrete
token value. -/
theorem C6_witness :
    normalize_etag_value ( "\"abc\"".data) ≠ [] ∧
    ((etag_matches ( "W/\"abc\"".data) ( "\"abc\"".data) = true ↔
      ∃ c ∈ (splitChars (Char.ofNat 44) ( "W/\"abc\"".data)).map stripChars,
        c = [Char.ofNat 42] ∨
          normalize_etag_value c = normalize_etag_value ( "\"abc\"".data)) ∧
     (∀ (db : DB) (fid now : Nat) (sum0 : DashboardSummary),
      get_dashboard_summary db fid now = .ok sum0 →
      (etag_matches ( "W/\"abc\"".data) (build_dashboard_summary_etag sum0) = true →
        ( "W/\"abc\"".data) ≠ [] →
        read_dashboard_summary db fid now (some ( "W/\"abc\"".data)) =
          .ok (.notModified (build_dashboard_summary_etag sum0))) ∧
      (etag_matches ( "W/\"abc\"".data) (build_dashboard_summary_etag sum0) = false →
        read_dashboard_summary db fid now (some ( "W/\"abc\"".data)) =
          .ok (.fresh sum0 (build_dashboard_summary_etag sum0))))) :=
  ⟨by decide, C6_etag_evaluation ( "W/\"abc\"".data) ( "\"abc\"".data) (by decide)⟩

/-! ### Fingerprint determinism and payload sensitivity -/

/-- The decimal digit character of `d < 10` has code point `48 + d`. -/
theorem digitChar_toNat {d : Nat} (h : d < 10) : (digitChar d).toNat = 48 + d := by
  interval_cases d <;> decide

/-- Decimal rendering round-trips through decimal parsing. -/
theorem parseNat_natChars (n : Nat) : parseNat (natChars n) = n := by
  induction n using Nat.strong_induction_on with
  | _ n ih =>
    by_cases h : n < 10
    · have hshow : parseNat (natChars n) = 10 * 0 + charVal (digitChar n) := by
        conv_lhs => rw [natChars.eq_def]
        rw [dif_pos h]
        rfl
      rw [hshow]
      unfold charVal
      rw [digitChar_toNat h]
      omega
    · have hrec : parseNat (natChars (n / 10)) = n / 10 :=
        ih _ (Nat.div_lt_self (by omega) (by omega))
      have hunf : natChars n = natChars (n / 10) ++ [digitChar (n % 10)] := by
        conv_lhs => rw [natChars.eq_def]
        rw [dif_neg h]
      have hshow : parseNat (natChars n) =
          10 * parseNat (natChars (n / 10)) + charVal (digitChar (n % 10)) := by
        rw [hunf]
        unfold parseNat
        rw [List.foldl_append]
        rfl
      rw [hshow, hrec]
      unfold charVal
      rw [digitChar_toNat (by omega : n % 10 < 10)]
      omega

/-- Decimal rendering of naturals is injective. -/
theorem natChars_inj {a b : Nat} (h : natChars a = natChars b) : a = b := by
  have := congrArg parseNat h
  rwa [parseNat_natChars, parseNat_natChars] at this

/-- Every character of a decimal rendering is a digit. -/
theorem natChars_digit_range (n : Nat) : ∀ c ∈ natChars n, 48 ≤ c.toNat ∧ c.toNat ≤ 57 := by
  induction n using Nat.strong_induction_on with
  | _ n ih =>
    intro c hc
    by_cases h : n < 10
    · unfold natChars at hc
      rw [dif_pos h, List.mem_singleton] at hc
      subst hc
      rw [digitChar_toNat h]
      omega
    · unfold natChars at hc
      rw [dif_neg h] at hc
      rcases List.mem_append.mp hc with hc | hc
      · exact ih _ (Nat.div_lt_self (by omega) (by omega)) c hc
      · rw [List.mem_singleton] at hc
        subst hc
        rw [digitChar_toNat (by omega : n % 10 < 10)]
        omega

/-- Decimal renderings are never empty. -/
theorem natChars_ne_nil (n : Nat) : natChars n ≠ [] := by
  unfold natChars
  by_cases h : n < 10
  · rw [dif_pos h]; simp
  · rw [dif_neg h]; simp

/-- The minus sign does not occur in a decimal rendering. -/
theorem minus_not_mem_natChars (n : Nat) : Char.ofNat 45 ∉ natChars n := by
  intro hmem
  have hrange := natChars_digit_range n _ hmem
  have h45 : (Char.ofNat 45).toNat = 45 := by decide
  omega

/-- Integer rendering is injective. -/
theorem intChars_inj {a b : Int} (h : intChars a = intChars b) : a = b := by
  unfold intChars at h
  by_cases ha : a < 0 <;> by_cases hb : b < 0
  · rw [if_pos ha, if_pos hb] at h
    injection h with _ htail
    have := natChars_inj htail
    omega
  · rw [if_pos ha, if_neg hb] at h
    exact absurd (h ▸ List.mem_cons_self _ _) (minus_not_mem_natChars b.natAbs)
  · rw [if_neg ha, if_pos hb] at h
    exact absurd (h ▸ List.mem_cons_self _ _) (minus_not_mem_natChars a.natAbs)
  · rw [if_neg ha, if_neg hb] at h
    have := natChars_inj h
    omega

/-- Splitting at the first occurrence of a separator absent from both prefixes
is unambiguous. -/
theorem append_cons_inj {c : Char} : ∀ {s1 s2 t1 t2 : List Char},
    c ∉ s1 → c ∉ s2 → s1 ++ c :: t1 = s2 ++ c :: t2 → s1 = s2 ∧ t1 = t2 := by
  intro s1
  induction s1 with
  | nil =>
    intro s2 t1 t2 _ h2 h
    cases s2 with
    | nil => simpa using h
    | cons b s2' =>
      simp only [List.nil_append, List.cons_append, List.cons.injEq] at h
      exact absurd (by rw [h.1]; exact List.mem_cons_self b s2' : c ∈ b :: s2') h2
  | cons a s1' ih =>
    intro s2 t1 t2 h1 h2 h
    cases s2 with
    | nil =>
      simp only [List.cons_append, List.nil_append, List.cons.injEq] at h
      exact absurd (by rw [h.1]; exact List.mem_cons_self c s1' : c ∈ a :: s1') h1
    | cons b s2' =>
      simp only [List.cons_append, List.cons.injEq] at h
      obtain ⟨hab, htail⟩ := h
      obtain ⟨hs, ht⟩ := ih (fun hx => h1 (List.mem_cons_of_mem a hx))
        (fun hx => h2 (List.mem_cons_of_mem b hx)) htail
      exact ⟨by rw [hab, hs], ht⟩

/-- The fraction slash does not occur in an integer rendering. -/
theorem slash_not_mem_intChars (i : Int) : Char.ofNat 47 ∉ intChars i := by
  intro hmem
  have h47 : (Char.ofNat 47).toNat = 47 := by decide
  unfold intChars at hmem
  by_cases h : i < 0
  · rw [if_pos h] at hmem
    rcases List.mem_cons.mp hmem with hx | hx
    · exact absurd hx (by decide)
    · have := natChars_digit_range _ _ hx
      omega
  · rw [if_neg h] at hmem
    have := natChars_digit_range _ _ hmem
    omega

/-- The canonical rational rendering is injective. -/
theorem ratChars_inj {q1 q2 : Rat} (h : ratChars q1 = ratChars q2) : q1 = q2 := by
  unfold ratChars at h
  obtain ⟨hnum, hden⟩ :=
    append_cons_inj (slash_not_mem_intChars q1.num) (slash_not_mem_intChars q2.num) h
  exact Rat.ext (intChars_inj hnum) (natChars_inj hden)

/-- Serialized metric objects distinguish different headline values. -/
theorem serializeMetricChars_value_ne {m : DashboardMetric} {v : Rat}
    (hne : v ≠ m.aggregated_value) :
    serializeMetricChars { m with aggregated_value := v } ≠ serializeMetricChars m := by
  intro h
  unfold serializeMetricChars at h
  have htail : serializeMetricTail { m with aggregated_value := v } = serializeMetricTail m := rfl
  rw [htail, List.append_assoc, List.append_assoc] at h
  have h2 := List.append_cancel_right (List.append_cancel_left h)
  exact hne (ratChars_inj h2)

/-- Serializing a metric list around a distinguished position. -/
theorem serializeMetricsList_split : ∀ (pre : List DashboardMetric) (x : DashboardMetric)
    (post : List DashboardMetric),
    serializeMetricsList (pre ++ x :: post) =
      preChunk pre ++ (serializeMetricChars x ++ postChunk post) := by
  intro pre
  induction pre with
  | nil =>
    intro x post
    cases post with
    | nil => simp [serializeMetricsList, preChunk, postChunk]
    | cons p ps => simp [serializeMetricsList, preChunk, postChunk]
  | cons a pre' ih =>
    intro x post
    rcases hcons : pre' ++ x :: post with _ | ⟨b, tail⟩
    · exact absurd hcons (by simp)
    · have hshow : serializeMetricsList (a :: pre' ++ x :: post) =
          serializeMetricChars a ++ Char.ofNat 44 :: serializeMetricsList (b :: tail) := by
        rw [List.cons_append, hcons]
        rfl
      rw [hshow, ← hcons, ih x post]
      simp [preChunk, List.append_assoc]

/-- Supporting facts about the fingerprint: it depends only on `facility_id`
and the metric content — in particular `generated_at` never influences the
token — and changing a metric’s headline aggregated value always changes the
canonical pre-hash payload.  Whether a payload change always changes the
hashed token itself is exactly collision-freedom of SHA-256 on these payloads
and is settled in neither direction here. -/
theorem etag_content_invariance_and_payload_sensitivity (s1 s2 : DashboardSummary)
    (h1 : s1.facility_id = s2.facility_id) (h2 : s1.metrics = s2.metrics) :
    build_dashboard_summary_etag s1 = build_dashboard_summary_etag s2 ∧
    (∀ (fid g1 g2 : Nat) (pre post : List DashboardMetric) (m : DashboardMetric) (v : Rat),
      v ≠ m.aggregated_value →
      payloadChars ⟨fid, g1, pre ++ { m with aggregated_value := v } :: post⟩ ≠
        payloadChars ⟨fid, g2, pre ++ m :: post⟩) := by
  constructor
  · have hpay : payloadChars s1 = payloadChars s2 := by
      unfold payloadChars
      rw [h1, h2]
    unfold build_dashboard_summary_etag
    rw [show payloadBytes s1 = payloadBytes s2 from by unfold payloadBytes; rw [hpay]]
  · intro fid g1 g2 pre post m v hne h
    unfold payloadChars at h
    rw [serializeMetricsList_split, serializeMetricsList_split] at h
    simp only [List.cons_append, List.append_assoc, List.cons.injEq, true_and,
      List.append_cancel_left_eq, List.append_cancel_right_eq] at h
    exact serializeMetricChars_value_ne hne h

end IndustrialDashboard
